import Mathlib

/-!
Verification development for the `repoman` repository-operations engine
(`internal/git/git.go`, `internal/git/manager.go`).

Go strings are modelled as Lean `String`s (which wrap `List Char`); the Go
standard-library string functions used by the source are embedded as the
`go*` helpers below, operating on the underlying character list.  Effectful
code (subprocess invocations via `runGitCmd`, `os.Stat`) is embedded against
an oracle `World` supplying the outcome of every external call; each
operation additionally returns the list of command-runner invocations it
performed (a `GitCall` records the `acceptNewHosts` flag and argument list),
so that trace properties (which host-key policy was used, whether the runner
was invoked at all) can be stated.
-/

namespace Repoman

/-- Model of Go `strings.HasPrefix`. -/
def goStartsWith (s pre : String) : Bool :=
  decide (pre.data <+: s.data)

/-- Model of Go `strings.HasSuffix`. -/
def goEndsWith (s suf : String) : Bool :=
  decide (suf.data <:+ s.data)

/-- Model of Go `strings.Contains`. -/
def goContainsSub (s sub : String) : Bool :=
  decide (sub.data <:+: s.data)

/-- Model of Go slicing `s[n:]` (ASCII: byte offsets and rune offsets agree). -/
def goDropN (s : String) (n : Nat) : String :=
  ⟨s.data.drop n⟩

/-- Model of Go `strings.TrimSuffix`. -/
def goTrimSuf (s suf : String) : String :=
  if goEndsWith s suf then ⟨s.data.take (s.data.length - suf.data.length)⟩ else s

/-- Split a character list at the first occurrence of `c`, if any. -/
def splitFirstL (c : Char) : List Char → Option (List Char × List Char)
  | [] => none
  | x :: xs =>
    if x = c then some ([], xs)
    else
      match splitFirstL c xs with
      | none => none
      | some (a, b) => some (x :: a, b)

/-- Model of Go `strings.SplitN(s, sep, 2)` for a one-character separator. -/
def goSplitN2 (s : String) (c : Char) : List String :=
  match splitFirstL c s.data with
  | none => [s]
  | some (a, b) => [⟨a⟩, ⟨b⟩]

/-- Model of Go `strings.TrimSpace`. -/
def goTrimSpace (s : String) : String :=
  ⟨((s.data.dropWhile Char.isWhitespace).reverse.dropWhile Char.isWhitespace).reverse⟩

/-- Model of Go `strings.Fields`: maximal runs of non-whitespace characters. -/
def fieldsL : List Char → List (List Char)
  | [] => []
  | x :: xs =>
    if x.isWhitespace then fieldsL xs
    else
      match fieldsL xs with
      | [] => [[x]]
      | w :: ws =>
        match xs with
        | [] => [[x]]
        | y :: _ => if y.isWhitespace then [x] :: w :: ws else (x :: w) :: ws

/-- Model of Go `strings.Fields` on a `String`. -/
def goFields (s : String) : List String :=
  (fieldsL s.data).map String.mk

/-- Model of Go `strings.Split(s, sep)` for a one-character separator. -/
def splitCharL (c : Char) : List Char → List (List Char)
  | [] => [[]]
  | x :: xs =>
    if x = c then [] :: splitCharL c xs
    else
      match splitCharL c xs with
      | [] => [[x]]
      | w :: ws => (x :: w) :: ws

/-- Model of Go `strings.Split` on a `String`, one-character separator. -/
def goSplitChar (s : String) (c : Char) : List String :=
  (splitCharL c s.data).map String.mk

/-!  The URL normalizer (`ToSSH`, `ToHTTP`, `ExtractRepoName` from git.go). -/

/-- `ToSSH` converts an HTTP/HTTPS git URL to an SSH git URL
(git.go:113-137).  Any other input is returned unchanged. -/
def ToSSH (url : String) : String :=
  if goStartsWith url "https://" || goStartsWith url "http://" then
    let u := url
    let u := if goStartsWith u "https://" then goDropN u 8 else goDropN u 7
    let u := goTrimSuf u "/"
    match goSplitN2 u '/' with
    | [host, repoPath] =>
      let repoPath := if goEndsWith repoPath ".git" then repoPath else repoPath ++ ".git"
      "git@" ++ host ++ ":" ++ repoPath
    | _ => url
  else url

/-- `ToHTTP` converts an SSH git URL to an HTTPS git URL (git.go:141-157).
Any other input is returned unchanged. -/
def ToHTTP (url : String) : String :=
  if goStartsWith url "git@" then
    let u := goTrimSuf (goDropN url 4) ".git"
    let u := goTrimSuf u "/"
    match goSplitN2 u ':' with
    | [host, repoPath] => "https://" ++ host ++ "/" ++ repoPath
    | _ => url
  else if goStartsWith url "ssh://git@" then
    let u := goTrimSuf (goDropN url 10) ".git"
    let u := goTrimSuf u "/"
    "https://" ++ u
  else url

/-!  Data model: Go errors, times, subprocess results, and the effect
oracle. -/

/-- Model of a Go `error` value.  `fmt.Errorf` without `%w` produces
`simple`; `fmt.Errorf` with `%w` produces `wrapped msg inner` whose
`Error()` string is `msg` and which wraps `inner`. -/
inductive GoError where
  | simple (msg : String)
  | wrapped (msg : String) (inner : GoError)
deriving DecidableEq

/-- The `Error()` string of a Go error. -/
def GoError.message : GoError → String
  | .simple m => m
  | .wrapped m _ => m

/-- Model of Go `time.Time` as used here: either the zero value
`time.Time\x7b\x7d` or `time.Unix(sec, 0)`. -/
inductive GoTime where
  | zero
  | unix (sec : Int)
deriving DecidableEq

/-- Result of one subprocess invocation: combined stdout+stderr and the
error/exit status (`none` on success), as returned by `CombinedOutput`. -/
structure GitResult where
  out : String
  err : Option GoError
deriving DecidableEq

/-- One command-runner invocation: the `acceptNewHosts` flag passed to
`runGitCmd` and the argument list given to `git`. -/
structure GitCall where
  acceptNew : Bool
  args : List String
deriving DecidableEq

/-- The `StrictHostKeyChecking` value `runGitCmd` configures for a call
(git.go:20-23). -/
def GitCall.hostKeyPolicy (c : GitCall) : String :=
  if c.acceptNew then "accept-new" else "yes"

/-- Outcome of `os.Stat` on a path: success (with `IsDir()`), a
does-not-exist error (`os.IsNotExist`), or some other stat error. -/
inductive StatRes where
  | ok (isDir : Bool)
  | notExist
  | statError (e : GoError)
deriving DecidableEq

/-- Effect oracle: the outcome of every external interaction.  `run` gives
the result of a `git` subprocess invocation (keyed by the host-key flag and
argument list); `stat` gives the outcome of `os.Stat`. -/
structure World where
  run : Bool → List String → GitResult
  stat : String → StatRes

/-- Whether `os.Stat` on `p` fails with `os.IsNotExist`. -/
def World.statIsNotExist (w : World) (p : String) : Bool :=
  match w.stat p with
  | .notExist => true
  | _ => false

/-- `runGitCmd` (git.go:17-39): executes one git command against the oracle
and records the invocation (its host-key policy and arguments) in the
trace. -/
def runGitCmd (w : World) (acceptNew : Bool) (args : List String) :
    GitResult × List GitCall :=
  (w.run acceptNew args, [⟨acceptNew, args⟩])

/-!  The error classifier (`wrapGitError`, git.go:376-410). -/

/-- Hint attached for the SSH-authentication signal class. -/
def sshHint : String :=
  "SSH authentication failed. Ensure your SSH key is added to ssh-agent (ssh-add) and your public key is registered with the remote server."

/-- Hint attached for the HTTP-authentication signal class. -/
def httpHint : String :=
  "HTTP authentication failed. Configure a Git credential helper or check your credentials."

/-- Hint attached for the connection-refused/timed-out signal class. -/
def connHint : String :=
  "Connection refused/timed out. The remote server may be down or unreachable."

/-- Hint attached for the host-key-verification signal class. -/
def hostKeyHint : String :=
  "SSH host key verification failed. This is a security issue - investigate before proceeding."

/-- Hint attached for the bad-object/remote-error signal class. -/
def remoteHint : String :=
  "Remote error - the repository may not exist or you may not have access."

/-- First signal class of the classifier: SSH permission denied / publickey
phrases in the output, or `exit status 255` in the error message. -/
def sshSignal (outputStr errMsg : String) : Bool :=
  goContainsSub outputStr "Permission denied, please try again" ||
  goContainsSub outputStr "Permission denied (publickey)" ||
  goContainsSub outputStr "publickey" ||
  goContainsSub errMsg "exit status 255"

/-- Second signal class: HTTP authentication failure / 401 / 403 / Logon
failed. -/
def httpSignal (outputStr : String) : Bool :=
  goContainsSub outputStr "Authentication failed" ||
  goContainsSub outputStr "401" ||
  goContainsSub outputStr "403" ||
  goContainsSub outputStr "Logon failed"

/-- Third signal class: connection refused or timed out. -/
def connSignal (outputStr : String) : Bool :=
  goContainsSub outputStr "Connection refused" ||
  goContainsSub outputStr "Connection timed out"

/-- Fourth signal class: host key verification failed. -/
def hostKeySignal (outputStr : String) : Bool :=
  goContainsSub outputStr "Host key verification failed"

/-- Fifth signal class: bad object or remote error. -/
def remoteSignal (outputStr : String) : Bool :=
  goContainsSub outputStr "fatal: bad object" ||
  goContainsSub outputStr "fatal: remote error"

/-- `wrapGitError` (git.go:376-410): inspect the combined output and error
message, pick the first matching signal class's hint (empty if none), and
wrap the original error with the operation name, appending the hint when one
was found. -/
def wrapGitError (err : GoError) (output : String) (operation : String) : GoError :=
  let outputStr := output
  let errMsg := err.message
  let hint :=
    if sshSignal outputStr errMsg then sshHint
    else if httpSignal outputStr then httpHint
    else if connSignal outputStr then connHint
    else if hostKeySignal outputStr then hostKeyHint
    else if remoteSignal outputStr then remoteHint
    else ""
  if hint ≠ "" then
    .wrapped (operation ++ " failed: " ++ errMsg ++ "\n  hint: " ++ hint) err
  else
    .wrapped (operation ++ " failed: " ++ errMsg) err

/-!  Numeric parsing used by the operations. -/

/-- Value of a digit run, most significant first. -/
def digitsVal : List Char → Nat
  | [] => 0
  | d :: ds => (d.toNat - '0'.toNat) * 10 ^ ds.length + digitsVal ds

/-- Model of `fmt.Sscanf(s, "%d", &count)` on an already-trimmed string:
reads an optional sign followed by at least one decimal digit from the front
of `s` (trailing input is ignored); fails when no digit is found. -/
def sscanfD (s : String) : Option Int :=
  let (neg, l) :=
    match s.data with
    | '-' :: rest => (true, rest)
    | '+' :: rest => (false, rest)
    | l => (false, l)
  let digits := l.takeWhile Char.isDigit
  if digits.isEmpty then none
  else
    let v : Int := (digitsVal digits : Nat)
    some (if neg then -v else v)

/-- Model of `strconv.ParseInt(s, 10, 64)`: an optional sign followed by
decimal digits making up the whole string, within the signed 64-bit range. -/
def parseInt64 (s : String) : Option Int :=
  let (neg, l) :=
    match s.data with
    | '-' :: rest => (true, rest)
    | '+' :: rest => (false, rest)
    | l => (false, l)
  if l.isEmpty || !l.all Char.isDigit then none
  else
    let v : Int := (digitsVal l : Nat)
    let v := if neg then -v else v
    if v < -(2 ^ 63) || 2 ^ 63 - 1 < v then none else some v

/-!  Repository operations (git.go), each returning its result together with
the trace of command-runner invocations it performed. -/

/-- `GetCommitCountCtx` (git.go:250-261): run `rev-list --all --count` and
parse the trimmed output as a decimal count.  (The text of the inner
`Sscanf` error is not modelled; no property depends on it.) -/
def GetCommitCountCtx (w : World) (path : String) :
    Except GoError Int × List GitCall :=
  let r := runGitCmd w false ["-C", path, "rev-list", "--all", "--count"]
  match r.1.err with
  | some e => (.error e, r.2)
  | none =>
    match sscanfD (goTrimSpace r.1.out) with
    | none => (.error (.wrapped "failed to parse commit count" (.simple "parse error")), r.2)
    | some n => (.ok n, r.2)

/-- `GetBranchCtx` (git.go:272-286): `symbolic-ref --short HEAD` first, then
`rev-parse --abbrev-ref HEAD`, else the sentinel `"Unknown"`. -/
def GetBranchCtx (w : World) (path : String) : String × List GitCall :=
  let r := runGitCmd w false ["-C", path, "symbolic-ref", "--short", "HEAD"]
  match r.1.err with
  | none => (goTrimSpace r.1.out, r.2)
  | some _ =>
    let r2 := runGitCmd w false ["-C", path, "rev-parse", "--abbrev-ref", "HEAD"]
    match r2.1.err with
    | none => (goTrimSpace r2.1.out, r.2 ++ r2.2)
    | some _ => ("Unknown", r.2 ++ r2.2)

/-- `GetStatusCtx` (git.go:215-241): branch, then commit count (an empty
repository short-circuits to `"Empty repo."`), then a short-form status
whose line count yields the summary. -/
def GetStatusCtx (w : World) (path : String) :
    (String × String × Option GoError) × List GitCall :=
  let b := GetBranchCtx w path
  let branch := b.1
  let c := GetCommitCountCtx w path
  match c.1 with
  | .error e =>
    ((branch, "", some (.wrapped ("failed to get commit count: " ++ e.message) e)),
      b.2 ++ c.2)
  | .ok count =>
    if count = 0 then ((branch, "Empty repo.", none), b.2 ++ c.2)
    else
      let r := runGitCmd w false ["-C", path, "status", "--short"]
      match r.1.err with
      | some e =>
        ((branch, "", some (.wrapped ("failed to get status: " ++ e.message) e)),
          b.2 ++ c.2 ++ r.2)
      | none =>
        if r.1.out = "" then ((branch, "Clean", none), b.2 ++ c.2 ++ r.2)
        else
          let lines := goSplitChar (goTrimSpace r.1.out) '\n'
          ((branch, toString lines.length ++ " files modified", none), b.2 ++ c.2 ++ r.2)

/-- `GetSyncStateCtx` (git.go:312-345): `"-"` for an empty repository;
otherwise parse the two left/right counts of
`rev-list --left-right --count HEAD...@\x7bu\x7d` into one of
Synced/Diverged/Ahead/Behind, with `"Unknown"` plus an error on any
failure. -/
def GetSyncStateCtx (w : World) (path : String) :
    (String × Option GoError) × List GitCall :=
  let c := GetCommitCountCtx w path
  match c.1 with
  | .error e => (("Unknown", some e), c.2)
  | .ok count =>
    if count = 0 then (("-", none), c.2)
    else
      let r := runGitCmd w false
        ["-C", path, "rev-list", "--left-right", "--count", "HEAD...@\x7bu\x7d"]
      match r.1.err with
      | some e =>
        (("Unknown", some (.wrapped ("failed to get sync state: " ++ e.message) e)),
          c.2 ++ r.2)
      | none =>
        match goFields r.1.out with
        | [ahead, behind] =>
          if ahead = "0" && behind = "0" then (("Synced", none), c.2 ++ r.2)
          else if ahead ≠ "0" && behind ≠ "0" then
            (("Diverged (+" ++ ahead ++ ", -" ++ behind ++ ")", none), c.2 ++ r.2)
          else if ahead ≠ "0" then (("Ahead (+" ++ ahead ++ ")", none), c.2 ++ r.2)
          else (("Behind (-" ++ behind ++ ")", none), c.2 ++ r.2)
        | _ =>
          (("Unknown", some (.simple ("unexpected output from rev-list: " ++ r.1.out))),
            c.2 ++ r.2)

/-- `GetLastCommitTimeCtx` (git.go:356-374): timestamp of the most recent
commit across all refs; empty repositories yield the zero time with no
error.  (The text of the inner `ParseInt` error is not modelled.) -/
def GetLastCommitTimeCtx (w : World) (path : String) :
    (GoTime × Option GoError) × List GitCall :=
  let r := runGitCmd w false ["-C", path, "log", "-1", "--format=%at", "--all"]
  match r.1.err with
  | some e =>
    let c := GetCommitCountCtx w path
    match c.1 with
    | .ok 0 => ((.zero, none), r.2 ++ c.2)
    | _ => ((.zero, some e), r.2 ++ c.2)
  | none =>
    let s := goTrimSpace r.1.out
    if s = "" then ((.zero, none), r.2)
    else
      match parseInt64 s with
      | none =>
        ((.zero, some (.wrapped "failed to parse commit time" (.simple "parse error"))), r.2)
      | some sec => ((.unix sec, none), r.2)

/-- `PullCtx` (git.go:187-197): run `git pull`; on failure report
`"repository is empty"` when the commit count is readable and zero,
otherwise classify the failure. -/
def PullCtx (w : World) (path : String) : Option GoError × List GitCall :=
  let r := runGitCmd w false ["-C", path, "pull"]
  match r.1.err with
  | none => (none, r.2)
  | some e =>
    let c := GetCommitCountCtx w path
    match c.1 with
    | .ok 0 => (some (.simple "repository is empty"), r.2 ++ c.2)
    | _ => (some (wrapGitError e r.1.out "git pull"), r.2 ++ c.2)

/-- `FetchCtx` (git.go:297-303): run `git fetch`, classifying any failure. -/
def FetchCtx (w : World) (path : String) : Option GoError × List GitCall :=
  let r := runGitCmd w false ["-C", path, "fetch"]
  match r.1.err with
  | some e => (some (wrapGitError e r.1.out "git fetch"), r.2)
  | none => (none, r.2)

/-- `validateURL` (git.go:199-206): reject URLs containing a space or
starting with `-`. -/
def validateURL (url : String) : Option GoError :=
  if goContainsSub url " " || goStartsWith url "-" then
    some (.simple ("invalid git URL: " ++ url))
  else none

/-- The URL normalization applied at the head of `CloneCtx` and `SyncCtx`:
`ToHTTP` when `useHTTP`, `ToSSH` otherwise. -/
def normalizeURL (useHTTP : Bool) (url : String) : String :=
  if useHTTP then ToHTTP url else ToSSH url

/-- `CloneCtx` (git.go:91-109): normalize, validate, then clone with the
accept-new host-key policy, classifying any failure. -/
def CloneCtx (w : World) (url path : String) (useHTTP : Bool) :
    Option GoError × List GitCall :=
  let url := normalizeURL useHTTP url
  match validateURL url with
  | some e => (some e, [])
  | none =>
    let r := runGitCmd w true ["clone", url, path]
    match r.1.err with
    | some e => (some (wrapGitError e r.1.out "git clone"), r.2)
    | none => (none, r.2)

/-- `SyncCtx` (git.go:57-78): pull when the path is an existing git
repository, clone when it does not exist, otherwise fail with a
configuration error. -/
def SyncCtx (w : World) (url path : String) (useHTTP : Bool) :
    Option GoError × List GitCall :=
  let url := normalizeURL useHTTP url
  match w.stat path with
  | .ok isDir =>
    if !isDir then
      (some (.simple ("path " ++ path ++ " exists but is not a directory")), [])
    else
      match w.stat (path ++ "/.git") with
      | .ok _ => PullCtx w path
      | _ => (some (.simple ("path " ++ path ++ " exists but is not a git repository")), [])
  | .statError e => (some e, [])
  | .notExist => CloneCtx w url path useHTTP

/-!  The orchestrator (manager.go). -/

/-- `RepoInfo` (manager.go:11-16). -/
structure RepoInfo where
  Name : String
  URL : String
  Path : String
  UseHTTP : Bool
deriving DecidableEq

/-- `RepoStatus` (manager.go:19-26). -/
structure RepoStatus where
  Error : Option GoError
  LastCommit : GoTime
  Name : String
  Branch : String
  Status : String
  SyncState : String
deriving DecidableEq

/-- The Go zero value of `RepoStatus`. -/
def zeroRepoStatus : RepoStatus :=
  { Error := none, LastCommit := .zero, Name := "", Branch := "", Status := "", SyncState := "" }

/-- `StatusMissing` (manager.go:30). -/
def StatusMissing : String := "Missing"

/-- `StatusError` (manager.go:32). -/
def StatusError : String := "Error"

/-- `StateUnknown` (manager.go:34). -/
def StateUnknown : String := "Unknown"

/-- `StateStale` (manager.go:36). -/
def StateStale : String := "Stale"

/-- `fetchStatusWithCtx` (manager.go:86-130): build one repository's status
record, short-circuiting to `Missing` when the local path does not exist,
otherwise combining fetch (optional), working-tree status, sync state and
last-commit time. -/
def fetchStatusWithCtx (w : World) (r : RepoInfo) (fetch : Bool) :
    RepoStatus × List GitCall :=
  let status0 := { zeroRepoStatus with Name := r.Name }
  if w.statIsNotExist r.Path then
    ({ status0 with Status := StatusMissing }, [])
  else
    let f := if fetch then FetchCtx w r.Path else (none, [])
    let fetchErr := f.1
    let st := GetStatusCtx w r.Path
    let branch := st.1.1
    let repoSummary := st.1.2.1
    let afterStatus :=
      match st.1.2.2 with
      | some e => { status0 with Branch := branch, Status := StatusError, Error := some e }
      | none => { status0 with Branch := branch, Status := repoSummary }
    let sy := GetSyncStateCtx w r.Path
    let afterSync :=
      match sy.1.2 with
      | some e =>
        { afterStatus with
          SyncState := StateUnknown
          Error := (match afterStatus.Error with
            | none => some e
            | some e0 => some e0) }
      | none =>
        { afterStatus with SyncState :=
            if fetchErr.isSome then sy.1.1 ++ " (" ++ StateStale ++ ")" else sy.1.1 }
    let lc := GetLastCommitTimeCtx w r.Path
    let final :=
      { afterSync with
        LastCommit := lc.1.1
        Error := (match lc.1.2, afterSync.Error with
          | some e, none => some e
          | _, other => other) }
    (final, f.2 ++ st.2 ++ sy.2 ++ lc.2)

/-!  `concurrentMap` (manager.go:134-184).  The task queue is the list of
`(original index, item)` pairs; a complete concurrent execution is modelled
by the schedule — a permutation of the task queue giving the order in which
workers' result writes land.  Each write stores the worker's result at the
task's original index in a result slice initialised to zero values. -/

/-- The task queue built from the input list: each item paired with its
original index (manager.go:145-149). -/
def taskQueue (items : List α) : List (Nat × α) :=
  items.enum

/-- Execute a schedule: starting from a zero-initialised result slice of
length `n`, each task writes `worker item` at its original index
(manager.go:170-171). -/
def concurrentMapExec (worker : α → β) (zero : β) (n : Nat)
    (sched : List (Nat × α)) : List β :=
  sched.foldl (fun results t => results.set t.1 (worker t.2)) (List.replicate n zero)

/-- `concurrentMap` under a complete execution with write order `sched`. -/
def concurrentMap (worker : α → β) (zero : β) (items : List α)
    (sched : List (Nat × α)) : List β :=
  concurrentMapExec worker zero items.length sched

/-- `SyncAllCtx` (manager.go:63-68): `concurrentMap` with the `SyncCtx`
worker; one error-or-nil per descriptor. -/
def SyncAllCtx (w : World) (repos : List RepoInfo) (sched : List (Nat × RepoInfo)) :
    List (Option GoError) :=
  concurrentMap (fun r => (SyncCtx w r.URL r.Path r.UseHTTP).1) none repos sched

/-- `StatusAllCtx` (manager.go:79-84): `concurrentMap` with the
`fetchStatusWithCtx` worker; one `RepoStatus` per descriptor. -/
def StatusAllCtx (w : World) (repos : List RepoInfo) (fetch : Bool)
    (sched : List (Nat × RepoInfo)) : List RepoStatus :=
  concurrentMap (fun r => (fetchStatusWithCtx w r fetch).1) zeroRepoStatus repos sched

deriving instance DecidableEq for Except

/-- First-error combinator: keep the earlier error when one is present. -/
def orElseO (a b : Option GoError) : Option GoError :=
  match a with
  | some e => some e
  | none => b

/-- A concrete oracle used to evaluate the theorems below on closed inputs.
Outcomes are keyed on the repository path: `"empty"` has zero commits,
`"pullok"` pulls cleanly, `"dirty"` has two modified files, `"diverged"`,
`"ahead"`, `"behind"` have the corresponding divergence counts,
`"noupstream"` has no configured upstream, and `"missing"` does not exist
on disk. -/
def wTest : World where
  run := fun _ args =>
    match args with
    | ["-C", p, "pull"] =>
      if p = "pullok" then ⟨"", none⟩ else ⟨"", some (.simple "exit status 1")⟩
    | ["-C", p, "rev-list", "--all", "--count"] =>
      if p = "empty" then ⟨"0\n", none⟩
      else if p = "badcount" then ⟨"xyz\n", none⟩
      else ⟨"5\n", none⟩
    | ["-C", _, "symbolic-ref", "--short", "HEAD"] => ⟨"main\n", none⟩
    | ["-C", p, "status", "--short"] =>
      if p = "dirty" then ⟨" M a.txt\n M b.txt\n", none⟩ else ⟨"", none⟩
    | ["-C", p, "rev-list", "--left-right", "--count", "HEAD...@\x7bu\x7d"] =>
      if p = "diverged" then ⟨"2\t3\n", none⟩
      else if p = "ahead" then ⟨"2\t0\n", none⟩
      else if p = "behind" then ⟨"0\t3\n", none⟩
      else if p = "noupstream" then ⟨"", some (.simple "exit status 128")⟩
      else ⟨"0\t0\n", none⟩
    | ["-C", _, "log", "-1", "--format=%at", "--all"] => ⟨"1700000000\n", none⟩
    | _ => ⟨"", none⟩
  stat := fun p => if p = "missing" then .notExist else .ok true

/-!  General lemmas about the string helpers, used below. -/


theorem mk_data (s : String) : String.mk s.data = s := by
  cases s
  rfl

theorem goStartsWith_true (s pre : String) (h : pre.data <+: s.data) :
    goStartsWith s pre = true :=
  decide_eq_true h

theorem goStartsWith_false (s pre : String) (h : ¬ pre.data <+: s.data) :
    goStartsWith s pre = false :=
  decide_eq_false h

theorem not_prefix_of_head_ne {c d : Char} (l m : List Char) (h : c ≠ d) :
    ¬ (c :: l <+: d :: m) := by
  rintro ⟨t, ht⟩
  rw [List.cons_append] at ht
  exact h (List.head_eq_of_cons_eq ht)

theorem single_suffix_concat (t : List Char) (c d : Char) :
    ([c] <:+ t ++ [d]) ↔ c = d := by
  constructor
  · rintro ⟨s, hs⟩
    have hd : (t ++ [d]).getLast? = some d := List.getLast?_concat t
    have hc : (s ++ [c]).getLast? = some c := List.getLast?_concat s
    rw [hs, hd] at hc
    exact (Option.some.inj hc).symm
  · rintro rfl
    exact List.suffix_append t _

theorem single_suffix_append (a l : List Char) (c : Char) (h : l ≠ []) :
    ([c] <:+ a ++ l) ↔ [c] <:+ l := by
  rcases List.eq_nil_or_concat l with rfl | ⟨m, d, rfl⟩
  · exact absurd rfl h
  · rw [List.concat_eq_append, ← List.append_assoc]
    rw [single_suffix_concat, single_suffix_concat]

theorem splitFirstL_append (c : Char) (a b : List Char) (h : c ∉ a) :
    splitFirstL c (a ++ c :: b) = some (a, b) := by
  induction a with
  | nil => simp [splitFirstL]
  | cons x xs ih =>
    have hx : x ≠ c := fun he => h (he ▸ List.mem_cons_self x xs)
    have hxs : c ∉ xs := fun hm => h (List.mem_cons_of_mem x hm)
    simp [splitFirstL, hx, ih hxs]

theorem goEndsWith_data (s suf : String) :
    goEndsWith s suf = true ↔ suf.data <:+ s.data := by
  simp [goEndsWith]

theorem goTrimSuf_of_not (s suf : String) (h : goEndsWith s suf = false) :
    goTrimSuf s suf = s := by
  simp [goTrimSuf, h]

theorem goTrimSuf_append (l : List Char) (suf : String) :
    goTrimSuf ⟨l ++ suf.data⟩ suf = ⟨l⟩ := by
  have he : goEndsWith ⟨l ++ suf.data⟩ suf = true :=
    decide_eq_true (List.suffix_append l suf.data)
  simp only [goTrimSuf, he, if_true]
  congr 1
  rw [List.length_append, Nat.add_sub_cancel, List.take_left]

theorem toSSH_https (host path : String)
    (h1 : '/' ∉ host.data) (h2 : path.data ≠ [])
    (h3 : goEndsWith path "/" = false) (h4 : goEndsWith path ".git" = false) :
    ToSSH ("https://" ++ host ++ "/" ++ path) =
      "git@" ++ host ++ ":" ++ (path ++ ".git") := by
  have hdata : ("https://" ++ host ++ "/" ++ path).data =
      "https://".data ++ (host.data ++ '/' :: path.data) := by
    simp [String.data_append, List.append_assoc]
  have hpre : goStartsWith ("https://" ++ host ++ "/" ++ path) "https://" = true := by
    apply goStartsWith_true
    rw [hdata]
    exact List.prefix_append _ _
  have hdrop : goDropN ("https://" ++ host ++ "/" ++ path) 8 =
      ⟨host.data ++ '/' :: path.data⟩ := by
    simp only [goDropN, hdata]
    congr 1
  have hnosuf : goEndsWith ⟨host.data ++ '/' :: path.data⟩ "/" = false := by
    apply decide_eq_false
    intro hsuf
    have hsuf2 : ['/'] <:+ (host.data ++ ['/']) ++ path.data := by
      have hre : (host.data ++ ['/']) ++ path.data = host.data ++ '/' :: path.data := by
        simp
      rw [hre]
      exact hsuf
    have hx : ['/'] <:+ path.data := (single_suffix_append _ _ _ h2).mp hsuf2
    have htrue : goEndsWith path "/" = true := decide_eq_true hx
    rw [h3] at htrue
    exact Bool.noConfusion htrue
  have hsplit : goSplitN2 ⟨host.data ++ '/' :: path.data⟩ '/' = [host, path] := by
    simp only [goSplitN2]
    rw [splitFirstL_append _ _ _ h1]
  rw [ToSSH]
  rw [hpre]
  simp only [Bool.true_or, if_true, hpre, hdrop]
  rw [goTrimSuf_of_not _ _ hnosuf, hsplit]
  simp only [h4, Bool.false_eq_true, if_false]

theorem toSSH_unchanged (u : String)
    (h1 : goStartsWith u "https://" = false) (h2 : goStartsWith u "http://" = false) :
    ToSSH u = u := by
  rw [ToSSH, h1, h2]
  rfl

theorem toHTTP_unchanged (u : String)
    (h1 : goStartsWith u "git@" = false) (h2 : goStartsWith u "ssh://git@" = false) :
    ToHTTP u = u := by
  rw [ToHTTP, h1, h2]
  rfl

theorem toHTTP_scp (host path : String)
    (h1 : ':' ∉ host.data) (h2 : path.data ≠ [])
    (h3 : goEndsWith path "/" = false) :
    ToHTTP ("git@" ++ host ++ ":" ++ (path ++ ".git")) =
      "https://" ++ host ++ "/" ++ path := by
  have hdata : ("git@" ++ host ++ ":" ++ (path ++ ".git")).data =
      "git@".data ++ ((host.data ++ ':' :: path.data) ++ ".git".data) := by
    simp [String.data_append, List.append_assoc]
  have hpre : goStartsWith ("git@" ++ host ++ ":" ++ (path ++ ".git")) "git@" = true := by
    apply goStartsWith_true
    rw [hdata]
    exact List.prefix_append _ _
  have hdrop : goDropN ("git@" ++ host ++ ":" ++ (path ++ ".git")) 4 =
      ⟨(host.data ++ ':' :: path.data) ++ ".git".data⟩ := by
    simp only [goDropN, hdata]
    congr 1
  have htrim : goTrimSuf ⟨(host.data ++ ':' :: path.data) ++ ".git".data⟩ ".git" =
      ⟨host.data ++ ':' :: path.data⟩ :=
    goTrimSuf_append _ _
  have hnosuf : goEndsWith ⟨host.data ++ ':' :: path.data⟩ "/" = false := by
    apply decide_eq_false
    intro hsuf
    have hsuf2 : ['/'] <:+ (host.data ++ [':']) ++ path.data := by
      have hre : (host.data ++ [':']) ++ path.data = host.data ++ ':' :: path.data := by
        simp
      rw [hre]
      exact hsuf
    have hx : ['/'] <:+ path.data := (single_suffix_append _ _ _ h2).mp hsuf2
    have htrue : goEndsWith path "/" = true := decide_eq_true hx
    rw [h3] at htrue
    exact Bool.noConfusion htrue
  have hsplit : goSplitN2 ⟨host.data ++ ':' :: path.data⟩ ':' = [host, path] := by
    simp only [goSplitN2]
    rw [splitFirstL_append _ _ _ h1]
  rw [ToHTTP]
  rw [hpre]
  simp only [if_true, hdrop]
  rw [htrim, goTrimSuf_of_not _ _ hnosuf, hsplit]



theorem goStartsWith_ne_head (s pre : String) {c d : Char} {cs ds : List Char}
    (hs : s.data = c :: cs) (hp : pre.data = d :: ds) (h : d ≠ c) :
    goStartsWith s pre = false :=
  goStartsWith_false _ _ (by rw [hs, hp]; exact not_prefix_of_head_ne _ _ h)

/-- C2 (amended): `ToSSH` and `ToHTTP` are mutual near-inverses on
canonical well-formed pairs — an HTTPS URL `https://host/path` whose path
does not already end in `.git` or a trailing slash, and the corresponding
SCP-style SSH URL `git@host:path.git`: `toHTTP(toSSH u) = toHTTP u` and
`toSSH(toHTTP v) = toSSH v`. -/
theorem urlRoundTrip_amended (host path : String)
    (hhs : '/' ∉ host.data) (hhc : ':' ∉ host.data) (hpn : path.data ≠ [])
    (hps : goEndsWith path "/" = false) (hpg : goEndsWith path ".git" = false) :
    ToHTTP (ToSSH ("https://" ++ host ++ "/" ++ path)) =
      ToHTTP ("https://" ++ host ++ "/" ++ path) ∧
    ToSSH (ToHTTP ("git@" ++ host ++ ":" ++ (path ++ ".git"))) =
      ToSSH ("git@" ++ host ++ ":" ++ (path ++ ".git")) := by
  have hu : ("https://" ++ host ++ "/" ++ path).data =
      'h' :: (("ttps://" : String).data ++ (host.data ++ '/' :: path.data)) := by
    rw [show ("https://" ++ host ++ "/" ++ path).data =
        ("https://" : String).data ++ (host.data ++ '/' :: path.data) by
      simp [String.data_append, List.append_assoc]]
    rw [show ("https://" : String).data = 'h' :: ("ttps://" : String).data from rfl]
    rw [List.cons_append]
  have hv : ("git@" ++ host ++ ":" ++ (path ++ ".git")).data =
      'g' :: (("it@" : String).data ++ ((host.data ++ ':' :: path.data) ++ ".git".data)) := by
    rw [show ("git@" ++ host ++ ":" ++ (path ++ ".git")).data =
        ("git@" : String).data ++ ((host.data ++ ':' :: path.data) ++ ".git".data) by
      simp [String.data_append, List.append_assoc]]
    rw [show ("git@" : String).data = 'g' :: ("it@" : String).data from rfl]
    rw [List.cons_append]
  have hng : goStartsWith ("https://" ++ host ++ "/" ++ path) "git@" = false :=
    goStartsWith_ne_head _ _ hu rfl (by decide)
  have hns : goStartsWith ("https://" ++ host ++ "/" ++ path) "ssh://git@" = false :=
    goStartsWith_ne_head _ _ hu rfl (by decide)
  have hv1 : goStartsWith ("git@" ++ host ++ ":" ++ (path ++ ".git")) "https://" = false :=
    goStartsWith_ne_head _ _ hv rfl (by decide)
  have hv2 : goStartsWith ("git@" ++ host ++ ":" ++ (path ++ ".git")) "http://" = false :=
    goStartsWith_ne_head _ _ hv rfl (by decide)
  constructor
  · rw [toSSH_https host path hhs hpn hps hpg]
    rw [toHTTP_scp host path hhc hpn hps]
    rw [toHTTP_unchanged _ hng hns]
  · rw [toHTTP_scp host path hhc hpn hps]
    rw [toSSH_https host path hhs hpn hps hpg]
    rw [toSSH_unchanged _ hv1 hv2]

/-- C2 counterexample: for the well-formed HTTPS URL
`https://github.com/user/repo.git` (which names the same logical repository
as `git@github.com:user/repo.git`), `toHTTP(toSSH u)` strips the `.git`
suffix while `toHTTP u` leaves the URL unchanged, so the claimed identity
`toHTTP(toSSH u) = toHTTP u` fails. -/
theorem urlRoundTrip_cex :
    ToHTTP (ToSSH "https://github.com/user/repo.git") ≠
      ToHTTP "https://github.com/user/repo.git" := by
  decide


theorem goStartsWith_append (s t : String) : goStartsWith (s ++ t) s = true :=
  goStartsWith_true _ _ (by rw [String.data_append]; exact List.prefix_append _ _)

theorem goStartsWith_refl (s : String) : goStartsWith s s = true :=
  goStartsWith_true _ _ (List.prefix_refl _)

/-- C5: on pull failure with a readable zero commit count, `PullCtx` returns
the distinct non-classified error `"repository is empty"`; on any other
failure it returns the original error wrapped through the classifier; on
success it returns nil. -/
theorem pullCtx_spec (w : World) (path : String) :
    ((w.run false ["-C", path, "pull"]).err = none → (PullCtx w path).1 = none) ∧
    (∀ e, (w.run false ["-C", path, "pull"]).err = some e →
      (GetCommitCountCtx w path).1 = .ok 0 →
      (PullCtx w path).1 = some (.simple "repository is empty")) ∧
    (∀ e, (w.run false ["-C", path, "pull"]).err = some e →
      (GetCommitCountCtx w path).1 ≠ .ok 0 →
      (PullCtx w path).1 =
        some (wrapGitError e (w.run false ["-C", path, "pull"]).out "git pull")) := by
  refine ⟨?_, ?_, ?_⟩
  · intro h
    simp only [PullCtx, runGitCmd, h]
  · intro e h hc
    simp only [PullCtx, runGitCmd, h, hc]
  · intro e h hc
    simp only [PullCtx, runGitCmd, h]

/-- Witness for C5 at concrete worlds: an empty repository, a clean pull,
and a non-empty failing pull. -/
theorem pullCtx_spec_witness :
    (PullCtx wTest "empty").1 = some (.simple "repository is empty") ∧
    (PullCtx wTest "pullok").1 = none ∧
    (PullCtx wTest "other").1 =
      some (wrapGitError (.simple "exit status 1") "" "git pull") := by
  refine ⟨?_, ?_, ?_⟩
  · exact (pullCtx_spec wTest "empty").2.1 (.simple "exit status 1") (by decide) (by decide)
  · exact (pullCtx_spec wTest "pullok").1 (by decide)
  · exact (pullCtx_spec wTest "other").2.2 (.simple "exit status 1") (by decide) (by decide)

/-- C6: the classifier wraps the original error (never replacing it),
appends the hint of the first matching signal class (first match wins, one
hint exactly), and with no matching signal attaches only the operation name
as context. -/
theorem wrapGitError_spec (err : GoError) (output op : String) :
    (∃ m, wrapGitError err output op = .wrapped m err) ∧
    (goStartsWith (wrapGitError err output op).message
      (op ++ " failed: " ++ err.message) = true) ∧
    (sshSignal output err.message = true →
      wrapGitError err output op =
        .wrapped (op ++ " failed: " ++ err.message ++ "\n  hint: " ++ sshHint) err) ∧
    (sshSignal output err.message = false → httpSignal output = true →
      wrapGitError err output op =
        .wrapped (op ++ " failed: " ++ err.message ++ "\n  hint: " ++ httpHint) err) ∧
    (sshSignal output err.message = false → httpSignal output = false →
      connSignal output = true →
      wrapGitError err output op =
        .wrapped (op ++ " failed: " ++ err.message ++ "\n  hint: " ++ connHint) err) ∧
    (sshSignal output err.message = false → httpSignal output = false →
      connSignal output = false → hostKeySignal output = true →
      wrapGitError err output op =
        .wrapped (op ++ " failed: " ++ err.message ++ "\n  hint: " ++ hostKeyHint) err) ∧
    (sshSignal output err.message = false → httpSignal output = false →
      connSignal output = false → hostKeySignal output = false →
      remoteSignal output = true →
      wrapGitError err output op =
        .wrapped (op ++ " failed: " ++ err.message ++ "\n  hint: " ++ remoteHint) err) ∧
    (sshSignal output err.message = false → httpSignal output = false →
      connSignal output = false → hostKeySignal output = false →
      remoteSignal output = false →
      wrapGitError err output op = .wrapped (op ++ " failed: " ++ err.message) err) := by
  refine ⟨?_, ?_, ?_, ?_, ?_, ?_, ?_, ?_⟩
  · simp only [wrapGitError]
    repeat' split
    all_goals exact ⟨_, rfl⟩
  · simp only [wrapGitError]
    repeat' split
    all_goals simp only [GoError.message]
    all_goals first
      | (rw [String.append_assoc]; exact goStartsWith_append _ _)
      | exact goStartsWith_refl _
  · intro h1
    simp only [wrapGitError, h1, if_true]
    rw [if_pos (by decide : (sshHint ≠ ""))]
  · intro h1 h2
    simp only [wrapGitError, h1, h2, Bool.false_eq_true, if_false, if_true]
    rw [if_pos (by decide : (httpHint ≠ ""))]
  · intro h1 h2 h3
    simp only [wrapGitError, h1, h2, h3, Bool.false_eq_true, if_false, if_true]
    rw [if_pos (by decide : (connHint ≠ ""))]
  · intro h1 h2 h3 h4
    simp only [wrapGitError, h1, h2, h3, h4, Bool.false_eq_true, if_false, if_true]
    rw [if_pos (by decide : (hostKeyHint ≠ ""))]
  · intro h1 h2 h3 h4 h5
    simp only [wrapGitError, h1, h2, h3, h4, h5, Bool.false_eq_true, if_false, if_true]
    rw [if_pos (by decide : (remoteHint ≠ ""))]
  · intro h1 h2 h3 h4 h5
    simp only [wrapGitError, h1, h2, h3, h4, h5, Bool.false_eq_true, if_false, if_true]
    rw [if_neg (by simp : ¬ ("" : String) ≠ "")]

/-- Witness for C6 at a concrete triple: output containing `publickey`
selects the SSH hint. -/
theorem wrapGitError_spec_witness :
    wrapGitError (.simple "exit status 128") "Permission denied (publickey)" "git clone" =
      .wrapped ("git clone" ++ " failed: " ++ "exit status 128" ++ "\n  hint: " ++ sshHint)
        (.simple "exit status 128") := by
  exact (wrapGitError_spec (.simple "exit status 128")
    "Permission denied (publickey)" "git clone").2.2.1 (by decide)

/-- C7: a descriptor whose local path does not exist yields status
`Missing` with every other field at its zero value, and performs zero
command-runner invocations. -/
theorem missingPath_spec (w : World) (r : RepoInfo) (fetch : Bool)
    (h : w.statIsNotExist r.Path = true) :
    fetchStatusWithCtx w r fetch =
      ({ Error := none, LastCommit := .zero, Name := r.Name, Branch := "",
         Status := StatusMissing, SyncState := "" }, []) := by
  simp only [fetchStatusWithCtx, h, if_true]
  rfl

/-- Witness for C7 at a concrete missing path. -/
theorem missingPath_spec_witness :
    fetchStatusWithCtx wTest ⟨"m", "u", "missing", false⟩ true =
      ({ Error := none, LastCommit := .zero, Name := "m", Branch := "",
         Status := StatusMissing, SyncState := "" }, []) := by
  exact missingPath_spec wTest ⟨"m", "u", "missing", false⟩ true (by decide)


/-- C3: sync state is `"-"` with no error for a zero commit count; otherwise
the two ahead/behind counts select Synced/Diverged/Ahead/Behind; a failing
commit count, a failing upstream query (no configured upstream), or output
that does not parse into two fields yields `"Unknown"` with a non-nil
error. -/
theorem syncState_spec (w : World) (path : String) :
    ((GetCommitCountCtx w path).1 = .ok 0 →
      (GetSyncStateCtx w path).1 = ("-", none)) ∧
    (∀ e, (GetCommitCountCtx w path).1 = .error e →
      (GetSyncStateCtx w path).1 = ("Unknown", some e)) ∧
    (∀ n, (GetCommitCountCtx w path).1 = .ok n → n ≠ 0 →
      ∀ e, (w.run false
          ["-C", path, "rev-list", "--left-right", "--count", "HEAD...@\x7bu\x7d"]).err =
            some e →
      ∃ eu, (GetSyncStateCtx w path).1 = ("Unknown", some eu)) ∧
    (∀ n, (GetCommitCountCtx w path).1 = .ok n → n ≠ 0 →
      (w.run false
          ["-C", path, "rev-list", "--left-right", "--count", "HEAD...@\x7bu\x7d"]).err =
            none →
      (goFields (w.run false
          ["-C", path, "rev-list", "--left-right", "--count", "HEAD...@\x7bu\x7d"]).out).length ≠ 2 →
      ∃ eu, (GetSyncStateCtx w path).1 = ("Unknown", some eu)) ∧
    (∀ n, (GetCommitCountCtx w path).1 = .ok n → n ≠ 0 →
      (w.run false
          ["-C", path, "rev-list", "--left-right", "--count", "HEAD...@\x7bu\x7d"]).err =
            none →
      ∀ a b, goFields (w.run false
          ["-C", path, "rev-list", "--left-right", "--count", "HEAD...@\x7bu\x7d"]).out =
            [a, b] →
      ((a = "0" ∧ b = "0") → (GetSyncStateCtx w path).1 = ("Synced", none)) ∧
      ((a ≠ "0" ∧ b ≠ "0") →
        (GetSyncStateCtx w path).1 = ("Diverged (+" ++ a ++ ", -" ++ b ++ ")", none)) ∧
      ((a ≠ "0" ∧ b = "0") →
        (GetSyncStateCtx w path).1 = ("Ahead (+" ++ a ++ ")", none)) ∧
      ((a = "0" ∧ b ≠ "0") →
        (GetSyncStateCtx w path).1 = ("Behind (-" ++ b ++ ")", none))) := by
  refine ⟨?_, ?_, ?_, ?_, ?_⟩
  · intro h
    simp only [GetSyncStateCtx, runGitCmd, h, eq_self_iff_true, if_true]
  · intro e h
    simp only [GetSyncStateCtx, runGitCmd, h]
  · intro n hn hn0 e he
    have hval : (GetSyncStateCtx w path).1 =
        ("Unknown", some (.wrapped ("failed to get sync state: " ++ e.message) e)) := by
      simp only [GetSyncStateCtx, runGitCmd, hn, he, if_neg hn0]
    exact ⟨_, hval⟩
  · intro n hn hn0 he hlen
    have hfields : ∀ a b, goFields (w.run false
        ["-C", path, "rev-list", "--left-right", "--count", "HEAD...@\x7bu\x7d"]).out ≠
          [a, b] := by
      intro a b hcontra
      rw [hcontra] at hlen
      exact hlen rfl
    have hval : (GetSyncStateCtx w path).1 = ("Unknown", some (.simple
        ("unexpected output from rev-list: " ++ (w.run false
          ["-C", path, "rev-list", "--left-right", "--count", "HEAD...@\x7bu\x7d"]).out))) := by
      simp only [GetSyncStateCtx, runGitCmd, hn, he, if_neg hn0]
    exact ⟨_, hval⟩
  · intro n hn hn0 he a b hab
    refine ⟨?_, ?_, ?_, ?_⟩
    · rintro ⟨rfl, rfl⟩
      simp only [GetSyncStateCtx, runGitCmd, hn, he, hab, if_neg hn0]
      simp
    · rintro ⟨ha, hb⟩
      simp only [GetSyncStateCtx, runGitCmd, hn, he, hab, if_neg hn0]
      simp [ha, hb]
    · rintro ⟨ha, rfl⟩
      simp only [GetSyncStateCtx, runGitCmd, hn, he, hab, if_neg hn0]
      simp [ha]
    · rintro ⟨rfl, hb⟩
      simp only [GetSyncStateCtx, runGitCmd, hn, he, hab, if_neg hn0]
      simp [hb]

/-- Witness for C3 at concrete worlds covering every outcome class. -/
theorem syncState_spec_witness :
    (GetSyncStateCtx wTest "empty").1 = ("-", none) ∧
    (GetSyncStateCtx wTest "other").1 = ("Synced", none) ∧
    (GetSyncStateCtx wTest "diverged").1 = ("Diverged (+" ++ "2" ++ ", -" ++ "3" ++ ")", none) ∧
    (GetSyncStateCtx wTest "ahead").1 = ("Ahead (+" ++ "2" ++ ")", none) ∧
    (GetSyncStateCtx wTest "behind").1 = ("Behind (-" ++ "3" ++ ")", none) ∧
    (∃ eu, (GetSyncStateCtx wTest "noupstream").1 = ("Unknown", some eu)) := by
  refine ⟨?_, ?_, ?_, ?_, ?_, ?_⟩
  · exact (syncState_spec wTest "empty").1 (by decide)
  · exact ((syncState_spec wTest "other").2.2.2.2 5 (by decide) (by decide) (by decide)
      "0" "0" (by decide)).1 ⟨rfl, rfl⟩
  · exact ((syncState_spec wTest "diverged").2.2.2.2 5 (by decide) (by decide) (by decide)
      "2" "3" (by decide)).2.1 ⟨by decide, by decide⟩
  · exact ((syncState_spec wTest "ahead").2.2.2.2 5 (by decide) (by decide) (by decide)
      "2" "0" (by decide)).2.2.1 ⟨by decide, rfl⟩
  · exact ((syncState_spec wTest "behind").2.2.2.2 5 (by decide) (by decide) (by decide)
      "0" "3" (by decide)).2.2.2 ⟨rfl, by decide⟩
  · exact (syncState_spec wTest "noupstream").2.2.1 5 (by decide) (by decide)
      (.simple "exit status 128") (by decide)

/-- C4: a zero commit count degrades gracefully — status summary
`"Empty repo."` and sync state `"-"`, both with nil error; with a nonzero
count, empty short-status output summarises as `"Clean"` and non-empty
output as `"<n> files modified"` with `n` the number of output lines. -/
theorem statusEmpty_spec (w : World) (path : String) :
    ((GetCommitCountCtx w path).1 = .ok 0 →
      (GetStatusCtx w path).1 = ((GetBranchCtx w path).1, "Empty repo.", none) ∧
      (GetSyncStateCtx w path).1 = ("-", none)) ∧
    (∀ n, (GetCommitCountCtx w path).1 = .ok n → n ≠ 0 →
      (w.run false ["-C", path, "status", "--short"]).err = none →
      ((w.run false ["-C", path, "status", "--short"]).out = "" →
        (GetStatusCtx w path).1 = ((GetBranchCtx w path).1, "Clean", none)) ∧
      ((w.run false ["-C", path, "status", "--short"]).out ≠ "" →
        (GetStatusCtx w path).1 = ((GetBranchCtx w path).1,
          toString (goSplitChar
              (goTrimSpace (w.run false ["-C", path, "status", "--short"]).out) '\n').length ++
            " files modified", none))) := by
  constructor
  · intro h
    constructor
    · simp only [GetStatusCtx, runGitCmd, h, eq_self_iff_true, if_true]
    · simp only [GetSyncStateCtx, runGitCmd, h, eq_self_iff_true, if_true]
  · intro n hn hn0 he
    constructor
    · intro hout
      simp only [GetStatusCtx, runGitCmd, hn, he, hout, if_neg hn0, eq_self_iff_true, if_true]
    · intro hout
      simp only [GetStatusCtx, runGitCmd, hn, he, if_neg hn0, if_neg hout]

/-- Witness for C4: an empty repository, a clean repository, and one with
two modified files. -/
theorem statusEmpty_spec_witness :
    (GetStatusCtx wTest "empty").1 = ("main", "Empty repo.", none) ∧
    (GetSyncStateCtx wTest "empty").1 = ("-", none) ∧
    (GetStatusCtx wTest "other").1 = ("main", "Clean", none) ∧
    (GetStatusCtx wTest "dirty").1 = ("main", "2 files modified", none) := by
  have h1 := (statusEmpty_spec wTest "empty").1 (by decide)
  have h2 := (statusEmpty_spec wTest "other").2 5 (by decide) (by decide) (by decide)
  have h3 := (statusEmpty_spec wTest "dirty").2 5 (by decide) (by decide) (by decide)
  refine ⟨?_, h1.2, ?_, ?_⟩
  · exact h1.1.trans (by decide)
  · exact (h2.1 (by decide)).trans (by decide)
  · exact (h3.2 (by decide)).trans (by decide)

/-- C10: for an existing path the record's `Error` field is exactly the
first error in the fixed order status/sync-state/last-commit (a fetch
failure is never stored there); a fetch failure only suffixes a
successfully computed sync state with `" (Stale)"`, and `Branch` is always
the branch computed by the status operation. -/
theorem statusRecord_spec (w : World) (r : RepoInfo) (fetch : Bool)
    (h : w.statIsNotExist r.Path = false) :
    (fetchStatusWithCtx w r fetch).1.Branch = (GetStatusCtx w r.Path).1.1 ∧
    (fetchStatusWithCtx w r fetch).1.Error =
      orElseO (GetStatusCtx w r.Path).1.2.2
        (orElseO (GetSyncStateCtx w r.Path).1.2 (GetLastCommitTimeCtx w r.Path).1.2) ∧
    ((GetSyncStateCtx w r.Path).1.2 = none →
      (fetchStatusWithCtx w r fetch).1.SyncState =
        (if (if fetch then FetchCtx w r.Path else (none, [])).1.isSome
          then (GetSyncStateCtx w r.Path).1.1 ++ " (" ++ StateStale ++ ")"
          else (GetSyncStateCtx w r.Path).1.1)) ∧
    (∀ e, (GetSyncStateCtx w r.Path).1.2 = some e →
      (fetchStatusWithCtx w r fetch).1.SyncState = StateUnknown) := by
  refine ⟨?_, ?_, ?_, ?_⟩
  · simp only [fetchStatusWithCtx, h, Bool.false_eq_true, if_false]
    rcases hst : (GetStatusCtx w r.Path).1.2.2 with _ | e1 <;>
      rcases hsy : (GetSyncStateCtx w r.Path).1.2 with _ | e2 <;>
        rcases hlc : (GetLastCommitTimeCtx w r.Path).1.2 with _ | e3 <;>
          simp [hst, hsy, hlc, zeroRepoStatus]
  · simp only [fetchStatusWithCtx, h, Bool.false_eq_true, if_false]
    rcases hst : (GetStatusCtx w r.Path).1.2.2 with _ | e1 <;>
      rcases hsy : (GetSyncStateCtx w r.Path).1.2 with _ | e2 <;>
        rcases hlc : (GetLastCommitTimeCtx w r.Path).1.2 with _ | e3 <;>
          simp [hst, hsy, hlc, orElseO, zeroRepoStatus]
  · intro hsy
    simp only [fetchStatusWithCtx, h, Bool.false_eq_true, if_false]
    rcases hst : (GetStatusCtx w r.Path).1.2.2 with _ | e1 <;>
      rcases hlc : (GetLastCommitTimeCtx w r.Path).1.2 with _ | e3 <;>
        cases fetch <;> simp [hst, hsy, hlc, zeroRepoStatus]
  · intro e hsy
    simp only [fetchStatusWithCtx, h, Bool.false_eq_true, if_false]
    rcases hst : (GetStatusCtx w r.Path).1.2.2 with _ | e1 <;>
      rcases hlc : (GetLastCommitTimeCtx w r.Path).1.2 with _ | e3 <;>
        simp [hst, hsy, hlc, zeroRepoStatus]

/-- Witness for C10: a fully healthy repository, and one without an
upstream whose sync state collapses to `Unknown`. -/
theorem statusRecord_spec_witness :
    (fetchStatusWithCtx wTest ⟨"n", "u", "other", false⟩ true).1.SyncState = "Synced" ∧
    (fetchStatusWithCtx wTest ⟨"n", "u", "other", false⟩ true).1.Error = none ∧
    (fetchStatusWithCtx wTest ⟨"n", "u", "noupstream", false⟩ false).1.SyncState =
      "Unknown" := by
  have hmain := statusRecord_spec wTest ⟨"n", "u", "other", false⟩ true (by decide)
  have hup := statusRecord_spec wTest ⟨"n", "u", "noupstream", false⟩ false (by decide)
  refine ⟨?_, ?_, ?_⟩
  · exact (hmain.2.2.1 (by decide)).trans (by decide)
  · exact hmain.2.1.trans (by decide)
  · exact (hup.2.2.2 (.wrapped "failed to get sync state: exit status 128"
      (.simple "exit status 128")) (by decide)).trans (by decide)


theorem foldl_set_length (worker : α → β) (sched : List (Nat × α)) :
    ∀ acc : List β,
      (sched.foldl (fun results t => results.set t.1 (worker t.2)) acc).length =
        acc.length := by
  induction sched with
  | nil => intro acc; rfl
  | cons p rest ih =>
    intro acc
    rw [List.foldl_cons, ih, List.length_set]

theorem foldl_set_untouched (worker : α → β) (i : Nat) (sched : List (Nat × α)) :
    ∀ acc : List β, (∀ p ∈ sched, p.1 ≠ i) →
      (sched.foldl (fun results t => results.set t.1 (worker t.2)) acc)[i]? =
        acc[i]? := by
  induction sched with
  | nil => intro acc _; rfl
  | cons p rest ih =>
    intro acc h
    rw [List.foldl_cons, ih _ (fun q hq => h q (List.mem_cons_of_mem _ hq))]
    exact List.getElem?_set_ne (h p (List.mem_cons_self _ _))

theorem foldl_set_mem (worker : α → β) (i : Nat) (x : α) (sched : List (Nat × α)) :
    ∀ acc : List β, (i, x) ∈ sched →
      (∀ p ∈ sched, p.1 = i → p.2 = x) → i < acc.length →
      (sched.foldl (fun results t => results.set t.1 (worker t.2)) acc)[i]? =
        some (worker x) := by
  induction sched with
  | nil => intro acc hmem _ _; cases hmem
  | cons p rest ih =>
    intro acc hmem hdet hlen
    rw [List.foldl_cons]
    by_cases hrest : ∃ y, (i, y) ∈ rest
    · obtain ⟨y, hy⟩ := hrest
      have hyx : y = x := hdet (i, y) (List.mem_cons_of_mem _ hy) rfl
      subst hyx
      exact ih _ hy (fun q hq hqi => hdet q (List.mem_cons_of_mem _ hq) hqi)
        (by rw [List.length_set]; exact hlen)
    · have hp : p = (i, x) := by
        rcases List.mem_cons.mp hmem with h | h
        · exact h.symm
        · exact absurd ⟨x, h⟩ hrest
      subst hp
      have hnot : ∀ q ∈ rest, q.1 ≠ i := by
        intro q hq hqi
        exact hrest ⟨q.2, by rw [← hqi]; simpa using hq⟩
      rw [foldl_set_untouched worker i rest _ hnot]
      exact List.getElem?_set_self hlen

/-- C1: a complete `concurrentMap` execution returns exactly one result per
input item, and the result of item `i` is stored at index `i`, for every
worker function and every write order (schedule). -/
theorem concurrentMap_spec (worker : α → β) (zero : β) (items : List α)
    (sched : List (Nat × α)) (hperm : sched.Perm (taskQueue items)) :
    (concurrentMap worker zero items sched).length = items.length ∧
    (∀ (i : Nat) (x : α), items[i]? = some x →
      (concurrentMap worker zero items sched)[i]? = some (worker x)) := by
  constructor
  · rw [concurrentMap, concurrentMapExec, foldl_set_length, List.length_replicate]
  · intro i x hix
    have hmem : (i, x) ∈ sched :=
      hperm.mem_iff.mpr (by rw [taskQueue]; exact List.mk_mem_enum_iff_getElem?.mpr hix)
    have hdet : ∀ p ∈ sched, p.1 = i → p.2 = x := by
      rintro ⟨p1, p2⟩ hp hpi
      have hpe : (p1, p2) ∈ items.enum := by
        have := hperm.mem_iff.mp hp
        rwa [taskQueue] at this
      have := List.mk_mem_enum_iff_getElem?.mp hpe
      cases hpi
      rw [hix] at this
      exact (Option.some.inj this).symm
    have hlt : i < items.length := by
      rcases List.getElem?_eq_some.mp hix with ⟨h, _⟩
      exact h
    rw [concurrentMap, concurrentMapExec]
    exact foldl_set_mem worker i x sched _ hmem hdet
      (by rw [List.length_replicate]; exact hlt)

/-- Witness for C1: two items executed in reverse order still land at their
own indices. -/
theorem concurrentMap_spec_witness :
    (concurrentMap (fun s : String => s ++ "!") "" ["a", "b"] [(1, "b"), (0, "a")]).length = 2 ∧
    (concurrentMap (fun s : String => s ++ "!") "" ["a", "b"] [(1, "b"), (0, "a")])[0]? =
      some ("a" ++ "!") ∧
    (concurrentMap (fun s : String => s ++ "!") "" ["a", "b"] [(1, "b"), (0, "a")])[1]? =
      some ("b" ++ "!") := by
  have h := concurrentMap_spec (fun s : String => s ++ "!") "" ["a", "b"]
    [(1, "b"), (0, "a")] (by decide)
  exact ⟨h.1, h.2 0 "a" (by decide), h.2 1 "b" (by decide)⟩

theorem commitCount_trace (w : World) (path : String) :
    ∀ c ∈ (GetCommitCountCtx w path).2, c.acceptNew = false := by
  intro c hc
  rcases h : (w.run false ["-C", path, "rev-list", "--all", "--count"]).err with _ | e
  · simp only [GetCommitCountCtx, runGitCmd, h] at hc
    rcases hp : sscanfD (goTrimSpace (w.run false
        ["-C", path, "rev-list", "--all", "--count"]).out) with _ | n <;>
      simp only [hp] at hc <;> (simp at hc; rw [hc])
  · simp only [GetCommitCountCtx, runGitCmd, h] at hc
    simp at hc
    rw [hc]

theorem branch_trace (w : World) (path : String) :
    ∀ c ∈ (GetBranchCtx w path).2, c.acceptNew = false := by
  intro c hc
  rcases h : (w.run false ["-C", path, "symbolic-ref", "--short", "HEAD"]).err with _ | e
  · simp only [GetBranchCtx, runGitCmd, h] at hc
    simp at hc
    rw [hc]
  · simp only [GetBranchCtx, runGitCmd, h] at hc
    rcases h2 : (w.run false ["-C", path, "rev-parse", "--abbrev-ref", "HEAD"]).err with _ | e2 <;>
      simp only [h2] at hc <;> (simp at hc; rcases hc with hc | hc <;> rw [hc])

theorem status_trace (w : World) (path : String) :
    ∀ c ∈ (GetStatusCtx w path).2, c.acceptNew = false := by
  intro c hc
  rcases hcc : (GetCommitCountCtx w path).1 with e | n
  · simp only [GetStatusCtx, runGitCmd, hcc] at hc
    rcases List.mem_append.mp hc with h | h
    · exact branch_trace w path c h
    · exact commitCount_trace w path c h
  · by_cases hn : n = 0
    · subst hn
      simp only [GetStatusCtx, runGitCmd, hcc, eq_self_iff_true, if_true] at hc
      rcases List.mem_append.mp hc with h | h
      · exact branch_trace w path c h
      · exact commitCount_trace w path c h
    · simp only [GetStatusCtx, runGitCmd, hcc, if_neg hn] at hc
      rcases hse : (w.run false ["-C", path, "status", "--short"]).err with _ | e <;>
        simp only [hse] at hc
      · by_cases ho : (w.run false ["-C", path, "status", "--short"]).out = ""
        · simp only [ho, eq_self_iff_true, if_true] at hc
          rcases List.mem_append.mp hc with h | h
          · rcases List.mem_append.mp h with h2 | h2
            · exact branch_trace w path c h2
            · exact commitCount_trace w path c h2
          · simp at h
            rw [h]
        · simp only [if_neg ho] at hc
          rcases List.mem_append.mp hc with h | h
          · rcases List.mem_append.mp h with h2 | h2
            · exact branch_trace w path c h2
            · exact commitCount_trace w path c h2
          · simp at h
            rw [h]
      · rcases List.mem_append.mp hc with h | h
        · rcases List.mem_append.mp h with h2 | h2
          · exact branch_trace w path c h2
          · exact commitCount_trace w path c h2
        · simp at h
          rw [h]



theorem syncState_trace (w : World) (path : String) :
    ∀ c ∈ (GetSyncStateCtx w path).2, c.acceptNew = false := by
  intro c hc
  simp only [GetSyncStateCtx, runGitCmd] at hc
  repeat' split at hc
  all_goals first
    | exact commitCount_trace w path c hc
    | (rcases List.mem_append.mp hc with h | h <;> first
        | exact commitCount_trace w path c h
        | (simp at h; rw [h]))

theorem lastCommit_trace (w : World) (path : String) :
    ∀ c ∈ (GetLastCommitTimeCtx w path).2, c.acceptNew = false := by
  intro c hc
  simp only [GetLastCommitTimeCtx, runGitCmd] at hc
  repeat' split at hc
  all_goals first
    | (simp at hc; rw [hc])
    | (rcases List.mem_append.mp hc with h | h <;> first
        | exact commitCount_trace w path c h
        | (simp at h; rw [h]))

theorem pull_trace (w : World) (path : String) :
    ∀ c ∈ (PullCtx w path).2, c.acceptNew = false := by
  intro c hc
  simp only [PullCtx, runGitCmd] at hc
  repeat' split at hc
  all_goals first
    | (simp at hc; rw [hc])
    | (rcases List.mem_append.mp hc with h | h <;> first
        | exact commitCount_trace w path c h
        | (simp at h; rw [h]))

theorem fetch_trace (w : World) (path : String) :
    ∀ c ∈ (FetchCtx w path).2, c.acceptNew = false := by
  intro c hc
  rcases h : (w.run false ["-C", path, "fetch"]).err with _ | e <;>
    simp only [FetchCtx, runGitCmd, h] at hc <;> (simp at hc; rw [hc])



/-- C8: every command-runner invocation made by pull, fetch, status, branch,
commit-count, sync-state and last-commit-time runs with the strict host-key
policy (`StrictHostKeyChecking=yes`); the accept-new policy appears only in
the clone operation, and when clone reaches the runner it always uses it. -/
theorem hostKey_spec (w : World) (path url p2 : String) (useHTTP : Bool) :
    (∀ c ∈ (PullCtx w path).2, c.hostKeyPolicy = "yes") ∧
    (∀ c ∈ (FetchCtx w path).2, c.hostKeyPolicy = "yes") ∧
    (∀ c ∈ (GetStatusCtx w path).2, c.hostKeyPolicy = "yes") ∧
    (∀ c ∈ (GetBranchCtx w path).2, c.hostKeyPolicy = "yes") ∧
    (∀ c ∈ (GetCommitCountCtx w path).2, c.hostKeyPolicy = "yes") ∧
    (∀ c ∈ (GetSyncStateCtx w path).2, c.hostKeyPolicy = "yes") ∧
    (∀ c ∈ (GetLastCommitTimeCtx w path).2, c.hostKeyPolicy = "yes") ∧
    (∀ c ∈ (CloneCtx w url p2 useHTTP).2, c.hostKeyPolicy = "accept-new") ∧
    (validateURL (normalizeURL useHTTP url) = none →
      (CloneCtx w url p2 useHTTP).2 =
        [⟨true, ["clone", normalizeURL useHTTP url, p2]⟩]) := by
  have hyes : ∀ c : GitCall, c.acceptNew = false → c.hostKeyPolicy = "yes" := by
    intro c h
    simp [GitCall.hostKeyPolicy, h]
  refine ⟨?_, ?_, ?_, ?_, ?_, ?_, ?_, ?_, ?_⟩
  · exact fun c hc => hyes c (pull_trace w path c hc)
  · exact fun c hc => hyes c (fetch_trace w path c hc)
  · exact fun c hc => hyes c (status_trace w path c hc)
  · exact fun c hc => hyes c (branch_trace w path c hc)
  · exact fun c hc => hyes c (commitCount_trace w path c hc)
  · exact fun c hc => hyes c (syncState_trace w path c hc)
  · exact fun c hc => hyes c (lastCommit_trace w path c hc)
  · intro c hc
    simp only [CloneCtx, runGitCmd] at hc
    repeat' split at hc
    all_goals first
      | (simp at hc; rw [hc]; rfl)
      | simp at hc
  · intro hv
    simp only [CloneCtx, runGitCmd, hv]
    split <;> rfl

/-- Witness for C8: a strict pull invocation and an accept-new clone
invocation in a concrete world. -/
theorem hostKey_spec_witness :
    GitCall.hostKeyPolicy ⟨false, ["-C", "other", "pull"]⟩ = "yes" ∧
    (CloneCtx wTest "https://h/r" "dst" false).2 =
      [⟨true, ["clone", "git@h:r.git", "dst"]⟩] := by
  have h := hostKey_spec wTest "other" "https://h/r" "dst" false
  constructor
  · exact h.1 ⟨false, ["-C", "other", "pull"]⟩ (by decide)
  · exact (h.2.2.2.2.2.2.2.2 (by decide)).trans (by decide)

/-- C9 counterexample: a URL whose normalized form contains whitespace (a
tab) is not rejected by clone's validation — the runner is still invoked
and no invalid-URL error is returned — refuting the claim that any
whitespace triggers the validation error. -/
theorem cloneValidation_cex :
    ('\t'.isWhitespace = true) ∧
    goContainsSub (normalizeURL false "ab\tcd") "\t" = true ∧
    (CloneCtx wTest "ab\tcd" "dst" false).1 ≠
      some (.simple ("invalid git URL: " ++ normalizeURL false "ab\tcd")) ∧
    (CloneCtx wTest "ab\tcd" "dst" false).2 ≠ [] := by
  refine ⟨by decide, by decide, by decide, by decide⟩

/-- C9 (amended): clone's validation error occurs exactly when the
normalized URL contains a space character or begins with `-`; in that case
the runner is never invoked, and otherwise clone proceeds to invoke the
runner once. -/
theorem cloneValidation_amended (w : World) (url path : String) (useHTTP : Bool) :
    ((goContainsSub (normalizeURL useHTTP url) " " ||
        goStartsWith (normalizeURL useHTTP url) "-") = true →
      CloneCtx w url path useHTTP =
        (some (.simple ("invalid git URL: " ++ normalizeURL useHTTP url)), [])) ∧
    ((goContainsSub (normalizeURL useHTTP url) " " ||
        goStartsWith (normalizeURL useHTTP url) "-") = false →
      (CloneCtx w url path useHTTP).2 =
        [⟨true, ["clone", normalizeURL useHTTP url, path]⟩]) := by
  constructor
  · intro h
    simp only [CloneCtx, validateURL, runGitCmd, h, if_true]
  · intro h
    simp only [CloneCtx, validateURL, runGitCmd, h, Bool.false_eq_true, if_false]
    split <;> rfl

/-- Witness for C9: a rejected URL beginning with `-` and an accepted
clean URL. -/
theorem cloneValidation_amended_witness :
    CloneCtx wTest "-bad" "dst" false =
      (some (.simple "invalid git URL: -bad"), []) ∧
    (CloneCtx wTest "https://h/r" "dst" false).2 =
      [⟨true, ["clone", "git@h:r.git", "dst"]⟩] := by
  constructor
  · exact ((cloneValidation_amended wTest "-bad" "dst" false).1 (by decide)).trans (by decide)
  · exact ((cloneValidation_amended wTest "https://h/r" "dst" false).2 (by decide)).trans
      (by decide)

/-- Witness for C2 at a concrete canonical pair. -/
theorem urlRoundTrip_amended_witness :
    ToHTTP (ToSSH ("https://" ++ "github.com" ++ "/" ++ "user/repo")) =
      ToHTTP ("https://" ++ "github.com" ++ "/" ++ "user/repo") ∧
    ToSSH (ToHTTP ("git@" ++ "github.com" ++ ":" ++ ("user/repo" ++ ".git"))) =
      ToSSH ("git@" ++ "github.com" ++ ":" ++ ("user/repo" ++ ".git")) :=
  urlRoundTrip_amended "github.com" "user/repo" (by decide) (by decide) (by decide)
    (by decide) (by decide)

end Repoman
